import Mathlib

/-!
Verification of the Dreamweaver playback-orchestration core and its
server-side proxy functions, as documented in the repository
(wiki/Architecture.md, wiki/Home.md, server/functions/index.js).

The JavaScript source is shallowly embedded: pure fragments become Lean
functions, the stateful playback loop becomes explicit state passing,
and the retry loop becomes a fueled recursion over a stream of upstream
outcomes.
-/

namespace Dreamweaver

/-! ## Music Intelligence System (wiki/Architecture.md, applyIntelligentScore)

The scoring regex built for each keyword is word-boundary anchored with a
trailing word-stem extension: for keyword k, the pattern is
backslash-b k backslash-w-star backslash-b, applied globally and
case-insensitively to the lowercased prose.  Since every catalog keyword is
purely alphabetic, a match of this pattern is exactly a maximal word of the
text (a maximal run of word characters) having k as a prefix, so the global
match count is the number of such words. -/

/-- JavaScript word character class: ASCII letters, digits and underscore. -/
def isWordChar (c : Char) : Bool :=
  c.isAlpha || c.isDigit || c == '_'

/-- Split a character list into its maximal runs of word characters
(the words the word-boundary regex can anchor on). -/
def wordsAux : List Char → List Char → List (List Char)
  | [], acc => if acc.isEmpty then [] else [acc.reverse]
  | c :: cs, acc =>
    if isWordChar c then
      wordsAux cs (c :: acc)
    else if acc.isEmpty then
      wordsAux cs []
    else
      acc.reverse :: wordsAux cs []

/-- The maximal word-character runs of a character list. -/
def jsWords (s : List Char) : List (List Char) :=
  wordsAux s []

/-- Number of global matches of the word-boundary stem-extended pattern for
an alphabetic keyword in a text: the number of words having the keyword as a
prefix. -/
def keywordMatchCount (kw : String) (text : List Char) : Nat :=
  (jsWords text).countP (fun w => kw.data.isPrefixOf w)

/-- Lowercase the prose, as applyIntelligentScore does before scoring. -/
def lowerProse (s : String) : List Char :=
  s.data.map Char.toLower

/-- Score of one track: the sum over its keywords of the global match
counts in the lowercased prose. -/
def trackScore (keywords : List String) (proseText : String) : Nat :=
  (keywords.map (fun kw => keywordMatchCount kw (lowerProse proseText))).sum

/-- A catalog entry of the default music library. -/
structure MusicTrack where
  key : String
  name : String
  keywords : List String
deriving Repr, DecidableEq

/-- The reference six-track catalog (wiki/Home.md, Default Music Library),
in catalog definition order. -/
def SCORE_LIBRARY : List MusicTrack :=
  [⟨"whimsical", "Whimsical Fantasy",
     ["magic", "wonder", "playful", "light", "fantasy", "enchant", "fairy", "charm"]⟩,
   ⟨"noir", "Noir Mystery",
     ["mystery", "detective", "shadow", "noir", "investigate", "clue", "secret", "hidden"]⟩,
   ⟨"epic", "High Adventure",
     ["battle", "war", "hero", "quest", "adventure", "fight", "warrior", "epic", "glory", "triumph"]⟩,
   ⟨"dark", "Dark Suspense",
     ["dark", "fear", "horror", "terror", "dread", "nightmare", "shadow", "death", "blood", "scream"]⟩,
   ⟨"scifi", "Sci-Fi Ambient",
     ["space", "future", "technology", "alien", "robot", "cyber", "quantum", "science", "ship", "galaxy"]⟩,
   ⟨"drama", "Heavy Drama",
     ["emotion", "tragic", "sorrow", "loss", "pain", "heart", "tear", "despair", "sacrifice"]⟩]

/-- Minimum keyword matches required to switch tracks (default 2). -/
def MUSIC_SELECTION_MIN_SCORE : Nat := 2

/-- The per-track scores, in catalog order (the iteration order of
Object.entries over the scores object). -/
def libraryScores (proseText : String) : List (String × Nat) :=
  SCORE_LIBRARY.map (fun t => (t.key, trackScore t.keywords proseText))

/-- JavaScript lookup with default: scores at suggestedType, or 0. -/
def lookupScore (l : List (String × Nat)) (k : String) : Nat :=
  match l with
  | [] => 0
  | p :: rest => if p.1 == k then p.2 else lookupScore rest k

/-- One step of the best-match loop: replace the running best only on a
strictly greater score. -/
def maxStep (b p : String × Nat) : String × Nat :=
  if p.2 > b.2 then p else b

/-- The best-match selection loop of applyIntelligentScore: start from the
AI-suggested type and its score, scan the catalog scores in order. -/
def selectBest (proseText suggestedType : String) : String × Nat :=
  (libraryScores proseText).foldl maxStep
    (suggestedType, lookupScore (libraryScores proseText) suggestedType)

/-- Result of applyIntelligentScore: the mood stored in state.currentMood
afterwards, and the track key passed to applyScore. -/
structure MusicResult where
  newMood : Option String
  applied : String
deriving Repr, DecidableEq

/-- applyIntelligentScore: apply the best match if its score reaches the
confidence threshold or no mood is set yet; otherwise fall back to the
AI suggestion and leave the stored mood unchanged. -/
def applyIntelligentScore (proseText suggestedType : String)
    (currentMood : Option String) : MusicResult :=
  let best := selectBest proseText suggestedType
  if decide (MUSIC_SELECTION_MIN_SCORE ≤ best.2) || currentMood.isNone then
    ⟨some best.1, best.1⟩
  else
    ⟨currentMood, suggestedType⟩

/-- The worked-example prose of the wiki and of the spec. -/
def examplePose : String :=
  "The hero drew his sword for the epic battle against the dark warrior."

/-! ## Session Clock & Chapter Scheduler (wiki/Architecture.md, wiki/Home.md) -/

/-- The scheduler-relevant fields of the global state object. -/
structure SchedState where
  isGeneratingChapter : Bool
  timeLeftSeconds : Int
  averageSentencesPerChapter : Nat
  estimatedSecondsPerSentence : Nat
  minTimeBufferRatio : Rat
deriving Repr, DecidableEq

/-- Default pacing constants of the state object. -/
def defaultSched (timeLeft : Int) (generating : Bool) : SchedState :=
  ⟨generating, timeLeft, 12, 8, 1/2⟩

/-- shouldGenerateNextChapter: refuse while a generation is in flight or the
clock has run out; otherwise require the remaining time to cover the
estimated chapter duration scaled by the buffer ratio. -/
def shouldGenerateNextChapter (s : SchedState) : Bool :=
  if s.isGeneratingChapter then false
  else if s.timeLeftSeconds ≤ 0 then false
  else
    let estimatedDuration : Rat :=
      ((s.averageSentencesPerChapter * s.estimatedSecondsPerSentence : Nat) : Rat)
    decide ((s.timeLeftSeconds : Rat) ≥ estimatedDuration * s.minTimeBufferRatio)

/-- The countdown-relevant fields of the global state object. -/
structure ClockState where
  isPlaying : Bool
  timeLeftSeconds : Int
deriving Repr, DecidableEq

/-- One 1-second tick of the countdown interval: decrement only while
playing, then force a stop once the clock is at or below zero
(autoStopPlayback). -/
def clockTick (s : ClockState) : ClockState :=
  let t := if s.isPlaying then s.timeLeftSeconds - 1 else s.timeLeftSeconds
  if t ≤ 0 then ⟨false, t⟩ else ⟨s.isPlaying, t⟩

/-! ## Image Prefetch Queue (wiki/Architecture.md, processImageQueue)

The drain worker runs on the single-threaded event loop: it pops the queue
head, generates and caches the image, sleeps the configured delay, and
repeats until the queue is empty.  The model timestamps each cache insertion
with a millisecond clock that the sleep advances, so ordering and pacing are
visible in the resulting cache. -/

/-- Mandatory inter-item delay of the queue worker (default 1000 ms). -/
def IMAGE_QUEUE_DELAY_MS : Nat := 1000

/-- An entry of state.imageQueue. -/
structure ImgItem where
  index : Nat
  prompt : String
deriving Repr, DecidableEq

/-- A populated image-cache record: sentence index, prompt, and the time at
which the generation completed. -/
structure ImgCacheEntry where
  index : Nat
  prompt : String
  time : Nat
deriving Repr, DecidableEq

/-- The image-queue-relevant fields of the global state object. -/
structure ImgState where
  imageQueue : List ImgItem
  imageCache : List ImgCacheEntry
  isProcessingImageQueue : Bool
deriving Repr, DecidableEq

/-- The while loop of processImageQueue: shift the head, cache its image at
the current time, then sleep the inter-item delay before the next item. -/
def drainLoop : List ImgItem → List ImgCacheEntry → Nat → List ImgCacheEntry × Nat
  | [], cache, t => (cache, t)
  | item :: rest, cache, t =>
      drainLoop rest (cache ++ [⟨item.index, item.prompt, t⟩]) (t + IMAGE_QUEUE_DELAY_MS)

/-- processImageQueue at time now: a no-op when a drain is already active,
otherwise set the guard, drain the whole queue, and clear the guard. -/
def processImageQueue (s : ImgState) (now : Nat) : ImgState :=
  if s.isProcessingImageQueue then s
  else
    ⟨[], (drainLoop s.imageQueue s.imageCache now).1, false⟩

/-- The timestamps the drain loop assigns to a queue processed from time t:
the n-th item completes at t + n * delay. -/
def annotate : List ImgItem → Nat → List ImgCacheEntry
  | [], _ => []
  | item :: rest, t => ⟨item.index, item.prompt, t⟩ :: annotate rest (t + IMAGE_QUEUE_DELAY_MS)

/-! ## Playback Loop & Audio Buffer (wiki/Architecture.md, playCycle)

playCycle gets the current sentence's audio blob (cached or fetched), preloads
the next 2 sentences into state.audioBuffer, plays the blob through an object
URL, and on the ended event revokes that URL, increments currentIndex and
recurses.  The model tracks the Map keys of audioBuffer (a key is inserted at
most once), and the set of indices whose object URL has been revoked.  Nothing
in the documented loop deletes entries from the audioBuffer Map. -/

/-- The audio-playback-relevant fields of the global state object:
the playback cursor, the keys of the audioBuffer Map, and the indices whose
object URLs were revoked on the ended event. -/
structure AudioState where
  currentIndex : Nat
  audioBuffer : List Nat
  revoked : List Nat
deriving Repr, DecidableEq

/-- Map.set semantics on the key list: insert the key only if absent. -/
def bufInsert (buf : List Nat) (i : Nat) : List Nat :=
  if i ∈ buf then buf else buf ++ [i]

/-- The lookahead phase of playCycle: ensure audio for the current sentence
and preload the next 2. -/
def ensureWindow (s : AudioState) : AudioState :=
  { s with audioBuffer :=
      bufInsert (bufInsert (bufInsert s.audioBuffer s.currentIndex)
        (s.currentIndex + 1)) (s.currentIndex + 2) }

/-- The ended handler of playCycle: revoke the played sentence's object URL
and advance the cursor. -/
def playAdvance (s : AudioState) : AudioState :=
  { s with currentIndex := s.currentIndex + 1,
           revoked := s.revoked ++ [s.currentIndex] }

/-- One full playCycle iteration. -/
def playCycle (s : AudioState) : AudioState :=
  playAdvance (ensureWindow s)

/-- n consecutive playCycle iterations. -/
def runCycles (s : AudioState) : Nat → AudioState
  | 0 => s
  | n + 1 => runCycles (playCycle s) n

/-- The session's state when playback starts: cursor at 0 with the first 3
sentences pre-buffered (the parallel first-chapter preload loop). -/
def initialAudioState : AudioState :=
  ⟨0, [0, 1, 2], []⟩

/-! ## Server proxy functions (server/functions/index.js)

The handlers are stateless: we embed a request as a record of the fields the
control flow inspects, JavaScript truthiness included, and embed the upstream
fetch as a stream of outcomes indexed by attempt number (the n-th entry is
what the n-th upstream call would produce). -/

/-- A JSON value as far as the handlers' type checks are concerned. -/
inductive JsVal
  | str (s : String)
  | num (n : Int)
  | boolean (b : Bool)
  | nullVal
  | objVal
deriving Repr, DecidableEq

/-- JavaScript truthiness of a JSON value. -/
def JsVal.truthy : JsVal → Bool
  | .str s => !s.isEmpty
  | .num n => n != 0
  | .boolean b => b
  | .nullVal => false
  | .objVal => true

/-- typeof v === a string. -/
def JsVal.isString : JsVal → Bool
  | .str _ => true
  | _ => false

/-- String payload of a JSON value (the empty string for non-strings). -/
def JsVal.asString : JsVal → String
  | .str s => s
  | _ => ""

/-- An error thrown by an upstream call, carrying the fields
isRetryableError inspects. -/
structure ApiError where
  statusCode : Option Nat
  code : Option String
  timedOut : Bool
deriving Repr, DecidableEq

/-- Status codes worth retrying. -/
def retryableStatusCodes : List Nat := [429, 500, 502, 503, 504]

/-- Network error codes worth retrying. -/
def networkErrors : List String :=
  ["ECONNRESET", "ETIMEDOUT", "ENOTFOUND", "ECONNREFUSED"]

/-- isRetryableError: retry on the listed status codes or the listed
network error codes. -/
def isRetryableError (statusCode : Option Nat) (error : ApiError) : Bool :=
  (match statusCode with
   | some c => retryableStatusCodes.contains c
   | none => false) ||
  (match error.code with
   | some c => networkErrors.contains c
   | none => false)

/-- RETRY_CONFIG.maxRetries. -/
def RETRY_maxRetries : Nat := 3

/-- RETRY_CONFIG.initialDelayMs. -/
def RETRY_initialDelayMs : Nat := 1000

/-- RETRY_CONFIG.maxDelayMs. -/
def RETRY_maxDelayMs : Nat := 10000

/-- The exponential backoff delay slept after the failure of the 0-based
attempt number given. -/
def backoffDelay (attempt : Nat) : Nat :=
  min (RETRY_initialDelayMs * 2 ^ attempt) RETRY_maxDelayMs

/-- Outcome of a run of retryWithBackoff: the final result, how many times
the wrapped operation was invoked, and the list of backoff delays slept
between consecutive attempts. -/
structure RetryResult (α : Type) where
  result : Except ApiError α
  calls : Nat
  delays : List Nat
deriving Repr

/-- The attempt loop of retryWithBackoff, starting at the given 0-based
attempt number with the given number of attempts still allowed after this
one.  fn gives the outcome of each attempt. -/
def retryGo (fn : Nat → Except ApiError α) (attempt : Nat) :
    Nat → RetryResult α
  | 0 =>
    match fn attempt with
    | .ok v => ⟨.ok v, 1, []⟩
    | .error e => ⟨.error e, 1, []⟩
  | fuel + 1 =>
    match fn attempt with
    | .ok v => ⟨.ok v, 1, []⟩
    | .error e =>
      if isRetryableError e.statusCode e then
        let r := retryGo fn (attempt + 1) fuel
        ⟨r.result, r.calls + 1, backoffDelay attempt :: r.delays⟩
      else
        ⟨.error e, 1, []⟩

/-- retryWithBackoff: run the operation, retrying retryable failures up to
RETRY_CONFIG.maxRetries additional times with exponential backoff, and
rethrowing a non-retryable failure immediately. -/
def retryWithBackoff (fn : Nat → Except ApiError α) : RetryResult α :=
  retryGo fn 0 RETRY_maxRetries

/-- A request to the generateStory endpoint, as far as its control flow
inspects it: the HTTP method, the App Check token and whether it verifies,
whether an API key is configured, and the two body fields. -/
structure StoryRequest where
  method : String
  appCheckToken : Option String
  appCheckValid : Bool
  apiKeyConfigured : Bool
  prompt : Option JsVal
  systemInstruction : Option JsVal
deriving Repr, DecidableEq

/-- What a handler run produces: the HTTP status, the error label of the
JSON body, and how many upstream API calls were made. -/
structure HandlerResponse where
  status : Nat
  error : String
  upstreamCalls : Nat
deriving Repr, DecidableEq

/-- Map the outcome of the retry-wrapped upstream call to the handler's
response, per the catch chain of generateStory. -/
def upstreamResponse (r : RetryResult Unit) : HandlerResponse :=
  match r.result with
  | .ok _ => ⟨200, "", r.calls⟩
  | .error e =>
    match e.statusCode with
    | some c => ⟨if 500 ≤ c then 502 else c, "Upstream API error", r.calls⟩
    | none =>
      if e.timedOut then ⟨504, "Request timeout", r.calls⟩
      else ⟨500, "Internal server error", r.calls⟩

/-- The generateStory handler: CORS preflight, method check, App Check
verification, API key lookup, input validation, then the retry-wrapped
upstream forward.  upstream gives the outcome of each upstream attempt. -/
def generateStory (r : StoryRequest)
    (upstream : Nat → Except ApiError Unit) : HandlerResponse :=
  if r.method == "OPTIONS" then ⟨204, "", 0⟩
  else if r.method != "POST" then ⟨405, "Method not allowed", 0⟩
  else if r.appCheckToken.isNone then ⟨403, "App Check verification required", 0⟩
  else if !r.appCheckValid then ⟨403, "App Check verification failed", 0⟩
  else if !r.apiKeyConfigured then ⟨500, "Server configuration error", 0⟩
  else
    match r.prompt with
    | none => ⟨400, "Invalid request", 0⟩
    | some p =>
      if !p.truthy || !p.isString then ⟨400, "Invalid request", 0⟩
      else if 10000 < p.asString.length then ⟨400, "Invalid request", 0⟩
      else
        match r.systemInstruction with
        | some si =>
          if si.truthy && !si.isString then ⟨400, "Invalid request", 0⟩
          else upstreamResponse (retryWithBackoff upstream)
        | none => upstreamResponse (retryWithBackoff upstream)

/-! ### generateTTS request-body construction

The accent and voice body fields are modelled as optional strings (a string
field that is present, or an absent field); the empty string is the falsy
string value. -/

/-- The accent instruction appended by generateTTS: only a truthy accent
different from the American default produces one. -/
def ttsAccentPrompt (accent : Option String) : String :=
  match accent with
  | none => ""
  | some a =>
    if !a.isEmpty && a != "American" then " Speak with a " ++ a ++ " accent."
    else ""

/-- The text generateTTS forwards to the upstream TTS API. -/
def ttsFullText (text : String) (accent : Option String) : String :=
  text ++ ttsAccentPrompt accent

/-- The voice name generateTTS forwards: the supplied voice, defaulting
to Kore when the field is absent or falsy. -/
def ttsVoiceName (voice : Option String) : String :=
  match voice with
  | none => "Kore"
  | some v => if v.isEmpty then "Kore" else v

/-! ## Helper lemmas on the best-match loop -/

theorem foldl_maxStep_snd_le (l : List (String × Nat)) (b : String × Nat) :
    b.2 ≤ (l.foldl maxStep b).2 := by
  induction l generalizing b with
  | nil => simp
  | cons p l ih =>
    simp only [List.foldl_cons]
    refine le_trans ?_ (ih (maxStep b p))
    unfold maxStep
    split <;> omega

theorem foldl_maxStep_eq_self (l : List (String × Nat)) (b : String × Nat)
    (h : (l.foldl maxStep b).2 ≤ b.2) : l.foldl maxStep b = b := by
  induction l generalizing b with
  | nil => rfl
  | cons p l ih =>
    simp only [List.foldl_cons] at h ⊢
    by_cases hp : p.2 > b.2
    · exfalso
      have hm : maxStep b p = p := by unfold maxStep; exact if_pos hp
      have h1 := foldl_maxStep_snd_le l (maxStep b p)
      rw [hm] at h h1
      omega
    · have hm : maxStep b p = b := by unfold maxStep; exact if_neg hp
      rw [hm] at h ⊢
      exact ih b h

theorem selectBest_fst_of_snd_zero (proseText sug : String)
    (h : (selectBest proseText sug).2 = 0) :
    (selectBest proseText sug).1 = sug := by
  unfold selectBest at h ⊢
  have heq := foldl_maxStep_eq_self (libraryScores proseText)
      (sug, lookupScore (libraryScores proseText) sug)
      (le_of_eq_of_le h (Nat.zero_le _))
  rw [heq]

theorem libraryScores_example :
    libraryScores examplePose =
      [("whimsical", 0), ("noir", 0), ("epic", 5), ("dark", 1), ("scifi", 0),
        ("drama", 0)] := by
  decide

theorem selectBest_example (sug : String) :
    selectBest examplePose sug = ("epic", 5) := by
  by_cases h1 : sug = "whimsical"
  · subst h1; decide
  by_cases h2 : sug = "noir"
  · subst h2; decide
  by_cases h3 : sug = "epic"
  · subst h3; decide
  by_cases h4 : sug = "dark"
  · subst h4; decide
  by_cases h5 : sug = "scifi"
  · subst h5; decide
  by_cases h6 : sug = "drama"
  · subst h6; decide
  have e1 : (("whimsical" : String) == sug) = false := beq_eq_false_iff_ne.mpr (Ne.symm h1)
  have e2 : (("noir" : String) == sug) = false := beq_eq_false_iff_ne.mpr (Ne.symm h2)
  have e3 : (("epic" : String) == sug) = false := beq_eq_false_iff_ne.mpr (Ne.symm h3)
  have e4 : (("dark" : String) == sug) = false := beq_eq_false_iff_ne.mpr (Ne.symm h4)
  have e5 : (("scifi" : String) == sug) = false := beq_eq_false_iff_ne.mpr (Ne.symm h5)
  have e6 : (("drama" : String) == sug) = false := beq_eq_false_iff_ne.mpr (Ne.symm h6)
  unfold selectBest
  rw [libraryScores_example]
  have hl : lookupScore
      [("whimsical", 0), ("noir", 0), ("epic", 5), ("dark", 1), ("scifi", 0),
        ("drama", 0)] sug = 0 := by
    simp [lookupScore, e1, e2, e3, e4, e5, e6]
  rw [hl]
  simp [maxStep, List.foldl]

/-- C1: for the worked-example prose scored against the reference catalog,
the claim that High Adventure scores exactly 4 is false: the word-boundary
pattern for the keyword war also matches warrior via the trailing
word-stem extension, so High Adventure scores 5. -/
theorem C1_music_scoring_counterexample :
    ¬ (libraryScores examplePose).lookup "epic" = some 4 := by
  decide

/-- C1 (amended): for the worked-example prose, High Adventure scores
exactly 5 (not 4), Dark Suspense scores exactly 1, and the selector picks
High Adventure (key epic) for every AI-suggested mood and current mood,
since 5 is at least the threshold 2. -/
theorem C1_music_scoring :
    (libraryScores examplePose).lookup "epic" = some 5 ∧
    (libraryScores examplePose).lookup "dark" = some 1 ∧
    ∀ (suggestedType : String) (currentMood : Option String),
      applyIntelligentScore examplePose suggestedType currentMood =
        ⟨some "epic", "epic"⟩ := by
  refine ⟨by decide, by decide, ?_⟩
  intro sug cur
  unfold applyIntelligentScore
  rw [selectBest_example sug]
  simp [MUSIC_SELECTION_MIN_SCORE]

/-- C3: the selector stores a new mood only when the winning keyword score
reaches the threshold 2 or no mood is set; with a weak score and a mood
already set it applies the AI-suggested track and keeps the stored mood;
with no mood set it always stores a mood, and at zero winning score the
applied track is the AI-suggested one. -/
theorem C3_threshold_policy :
    ∀ (proseText suggestedType : String) (currentMood : Option String),
      ((applyIntelligentScore proseText suggestedType currentMood).newMood ≠ currentMood →
        MUSIC_SELECTION_MIN_SCORE ≤ (selectBest proseText suggestedType).2 ∨
          currentMood = none) ∧
      (∀ m, currentMood = some m →
        (selectBest proseText suggestedType).2 < MUSIC_SELECTION_MIN_SCORE →
        (applyIntelligentScore proseText suggestedType currentMood).applied =
            suggestedType ∧
          (applyIntelligentScore proseText suggestedType currentMood).newMood =
            some m) ∧
      (currentMood = none →
        ((applyIntelligentScore proseText suggestedType currentMood).newMood).isSome =
            true ∧
          ((selectBest proseText suggestedType).2 = 0 →
            (applyIntelligentScore proseText suggestedType currentMood).applied =
              suggestedType)) := by
  intro proseText sug cur
  refine ⟨?_, ?_, ?_⟩
  · intro hne
    unfold applyIntelligentScore at hne
    by_cases hb : (decide (MUSIC_SELECTION_MIN_SCORE ≤ (selectBest proseText sug).2) ||
        cur.isNone) = true
    · rcases Bool.or_eq_true_iff.mp hb with hc | hc
      · exact Or.inl (of_decide_eq_true hc)
      · exact Or.inr (Option.isNone_iff_eq_none.mp hc)
    · rw [if_neg (by simpa using hb)] at hne
      exact absurd rfl hne
  · intro m hm hlt
    subst hm
    unfold applyIntelligentScore
    rw [if_neg]
    · exact ⟨rfl, rfl⟩
    · simp [Nat.not_le.mpr hlt]
  · intro hn
    subst hn
    unfold applyIntelligentScore
    rw [if_pos (by simp)]
    exact ⟨rfl, fun h0 => selectBest_fst_of_snd_zero proseText sug h0⟩

/-- C3 witness: on prose with no keyword matches and a mood already set,
the selector applies the AI-suggested track. -/
theorem C3_threshold_policy_witness :
    (applyIntelligentScore "nothing here" "drama" (some "noir")).applied =
      "drama" :=
  (((C3_threshold_policy "nothing here" "drama" (some "noir")).2.1 "noir" rfl
    (by decide)).1)

/-- C2: shouldGenerateNextChapter returns true exactly when no generation is
in flight, time remains, and the remaining time covers the estimated chapter
duration scaled by the buffer ratio; with the default pacing constants it
rejects 40 seconds and accepts 50 seconds. -/
theorem C2_scheduler_gating :
    (∀ s : SchedState, shouldGenerateNextChapter s = true ↔
      (s.isGeneratingChapter = false ∧ 0 < s.timeLeftSeconds ∧
        ((s.averageSentencesPerChapter * s.estimatedSecondsPerSentence : Nat) : Rat) *
            s.minTimeBufferRatio ≤ (s.timeLeftSeconds : Rat))) ∧
    shouldGenerateNextChapter (defaultSched 40 false) = false ∧
    shouldGenerateNextChapter (defaultSched 50 false) = true := by
  refine ⟨?_, ?_, ?_⟩
  · intro s
    unfold shouldGenerateNextChapter
    split_ifs with h1 h2
    · simp [h1]
    · constructor
      · intro h
        cases h
      · rintro ⟨-, ht, -⟩
        omega
    · rw [decide_eq_true_iff]
      constructor
      · intro hge
        exact ⟨by simpa using h1, by omega, hge⟩
      · rintro ⟨-, -, hle⟩
        exact hle
  · simp [shouldGenerateNextChapter, defaultSched]
    norm_num
  · simp [shouldGenerateNextChapter, defaultSched]
    norm_num

/-- C2 witness: with the defaults and 96 seconds left, generation is
allowed. -/
theorem C2_scheduler_gating_witness :
    shouldGenerateNextChapter (defaultSched 96 false) = true :=
  (C2_scheduler_gating.1 (defaultSched 96 false)).mpr
    ⟨rfl, by norm_num [defaultSched], by norm_num [defaultSched]⟩

/-- C5: a clock tick decrements timeLeftSeconds exactly when isPlaying is
set, and whenever the tick leaves the clock at or below zero, playback is
stopped. -/
theorem C5_clock_tick :
    ∀ s : ClockState,
      ((clockTick s).timeLeftSeconds = s.timeLeftSeconds - 1 ↔
        s.isPlaying = true) ∧
      ((clockTick s).timeLeftSeconds ≤ 0 → (clockTick s).isPlaying = false) := by
  intro s
  unfold clockTick
  cases hp : s.isPlaying
  all_goals split
  all_goals simp_all [apply_ite ClockState.timeLeftSeconds,
    apply_ite ClockState.isPlaying]
  all_goals omega

/-- C5 witness: a playing session with one second left stops on the next
tick. -/
theorem C5_clock_tick_witness : (clockTick ⟨true, 1⟩).isPlaying = false :=
  (C5_clock_tick ⟨true, 1⟩).2 (by decide)

theorem drainLoop_cache (q : List ImgItem) (cache : List ImgCacheEntry)
    (t : Nat) : (drainLoop q cache t).1 = cache ++ annotate q t := by
  induction q generalizing cache t with
  | nil => simp [drainLoop, annotate]
  | cons item rest ih =>
    simp [drainLoop, annotate, ih]

theorem annotate_getElem? (q : List ImgItem) (now n : Nat) :
    (annotate q now)[n]? =
      (q[n]?).map
        (fun it => ⟨it.index, it.prompt, now + n * IMAGE_QUEUE_DELAY_MS⟩) := by
  induction q generalizing now n with
  | nil => simp [annotate]
  | cons item rest ih =>
    cases n with
    | zero => simp [annotate]
    | succ m =>
      simp only [annotate, List.getElem?_cons_succ, ih]
      cases rest[m]? with
      | none => rfl
      | some it =>
        simp [Option.map]
        ring

/-- C4: a drain call while the guard is set is a no-op; an actual drain
empties the queue and appends one cache entry per queue item, in queue
order; the n-th processed item completes at the start time plus n times the
inter-item delay, so consecutive completions are separated by exactly the
configured delay. -/
theorem C4_image_queue :
    (∀ (s : ImgState) (now : Nat), s.isProcessingImageQueue = true →
      processImageQueue s now = s) ∧
    (∀ (s : ImgState) (now : Nat), s.isProcessingImageQueue = false →
      processImageQueue s now =
        ⟨[], s.imageCache ++ annotate s.imageQueue now, false⟩) ∧
    (∀ (q : List ImgItem) (now n : Nat),
      (annotate q now)[n]? =
        (q[n]?).map
          (fun it => ⟨it.index, it.prompt, now + n * IMAGE_QUEUE_DELAY_MS⟩)) ∧
    (∀ (q : List ImgItem) (now n : Nat) (e1 e2 : ImgCacheEntry),
      (annotate q now)[n]? = some e1 → (annotate q now)[n + 1]? = some e2 →
        e1.time + IMAGE_QUEUE_DELAY_MS = e2.time) := by
  refine ⟨?_, ?_, annotate_getElem?, ?_⟩
  · intro s now h
    simp [processImageQueue, h]
  · intro s now h
    simp [processImageQueue, h, drainLoop_cache]
  · intro q now n e1 e2 h1 h2
    rw [annotate_getElem?] at h1 h2
    rcases Option.map_eq_some'.mp h1 with ⟨it1, -, hf1⟩
    rcases Option.map_eq_some'.mp h2 with ⟨it2, -, hf2⟩
    rw [← hf1, ← hf2]
    simp [IMAGE_QUEUE_DELAY_MS]
    ring

/-- C4 witness: a drain call made while the guard flag is set leaves the
state untouched. -/
theorem C4_image_queue_witness :
    processImageQueue ⟨[⟨7, "x"⟩], [], true⟩ 0 = ⟨[⟨7, "x"⟩], [], true⟩ :=
  C4_image_queue.1 ⟨[⟨7, "x"⟩], [], true⟩ 0 rfl

theorem bufInsert_of_mem (buf : List Nat) (i : Nat) (h : i ∈ buf) :
    bufInsert buf i = buf := by
  unfold bufInsert
  exact if_pos h

theorem bufInsert_of_not_mem (buf : List Nat) (i : Nat) (h : ¬ i ∈ buf) :
    bufInsert buf i = buf ++ [i] := by
  unfold bufInsert
  exact if_neg h

theorem mem_bufInsert_self (buf : List Nat) (i : Nat) : i ∈ bufInsert buf i := by
  unfold bufInsert
  split
  · assumption
  · simp

theorem mem_bufInsert_of_mem (buf : List Nat) (i j : Nat) (h : j ∈ buf) :
    j ∈ bufInsert buf i := by
  unfold bufInsert
  split
  · exact h
  · simp [h]

theorem playCycle_shape (k : Nat) :
    playCycle ⟨k, List.range (k + 2), List.range k⟩ =
      ⟨k + 1, List.range (k + 3), List.range (k + 1)⟩ := by
  unfold playCycle ensureWindow playAdvance
  dsimp only
  rw [bufInsert_of_mem _ _ (List.mem_range.mpr (by omega)),
      bufInsert_of_mem _ _ (List.mem_range.mpr (by omega)),
      bufInsert_of_not_mem _ _ (by simp [List.mem_range]),
      ← List.range_succ, ← List.range_succ]

theorem runCycles_shape (n k : Nat) :
    runCycles ⟨k, List.range (k + 2), List.range k⟩ n =
      ⟨k + n, List.range (k + n + 2), List.range (k + n)⟩ := by
  induction n generalizing k with
  | zero => simp [runCycles]
  | succ m ih =>
    have h1 : runCycles (⟨k, List.range (k + 2), List.range k⟩ : AudioState)
        (m + 1) =
        runCycles (playCycle ⟨k, List.range (k + 2), List.range k⟩) m := rfl
    rw [h1, playCycle_shape k]
    have h2 : (⟨k + 1, List.range (k + 3), List.range (k + 1)⟩ : AudioState) =
        ⟨k + 1, List.range (k + 1 + 2), List.range (k + 1)⟩ := rfl
    rw [h2, ih (k + 1)]
    have e1 : k + 1 + m = k + (m + 1) := by omega
    rw [e1]

theorem runCycles_initial (n : Nat) :
    runCycles initialAudioState n =
      ⟨n, List.range (max (n + 2) 3), List.range n⟩ := by
  cases n with
  | zero => decide
  | succ m =>
    have h1 : runCycles initialAudioState (m + 1) =
        runCycles (playCycle initialAudioState) m := rfl
    have h2 : playCycle initialAudioState =
        ⟨1, List.range (1 + 2), List.range 1⟩ := by decide
    rw [h1, h2, runCycles_shape m 1]
    have e1 : 1 + m = m + 1 := by omega
    have e2 : max (m + 1 + 2) 3 = m + 1 + 2 := by omega
    rw [e1, e2]

/-- C6 counterexample: after the playback loop has advanced to index 5, the
audio buffer still holds an entry for index 0, which is below 5 minus the
lookahead window of 2, so stale entries are not removed from the cache. -/
theorem C6_eviction_counterexample :
    (runCycles initialAudioState 5).currentIndex = 5 ∧
    0 ∈ (runCycles initialAudioState 5).audioBuffer ∧ (0 : Nat) < 5 - 2 := by
  decide

/-- C6 (amended): after advancing to index k the object URL of every played
index (every index below k) has been revoked, the buffer map holds at most
one entry per index, but the blob entries themselves are never removed: the
buffer holds every index fetched so far. -/
theorem C6_buffer_release :
    ∀ n : Nat, (runCycles initialAudioState n).currentIndex = n ∧
      (runCycles initialAudioState n).revoked = List.range n ∧
      (∀ i, i < n → i ∈ (runCycles initialAudioState n).revoked) ∧
      (runCycles initialAudioState n).audioBuffer =
        List.range (max (n + 2) 3) ∧
      (runCycles initialAudioState n).audioBuffer.Nodup := by
  intro n
  rw [runCycles_initial n]
  refine ⟨rfl, rfl, ?_, rfl, List.nodup_range _⟩
  intro i hi
  exact List.mem_range.mpr hi

/-- C6 witness: after 4 cycles, index 0 has been revoked. -/
theorem C6_buffer_release_witness :
    0 ∈ (runCycles initialAudioState 4).revoked :=
  (C6_buffer_release 4).2.2.1 0 (by decide)

/-- C7: on every advance the playback loop ensures audio for the current
index and the next 2 indices, so in every reachable playback state
(fetches completing) the audio cache holds entries for currentIndex,
currentIndex + 1 and currentIndex + 2. -/
theorem C7_lookahead :
    (∀ s : AudioState,
      s.currentIndex ∈ (ensureWindow s).audioBuffer ∧
      s.currentIndex + 1 ∈ (ensureWindow s).audioBuffer ∧
      s.currentIndex + 2 ∈ (ensureWindow s).audioBuffer) ∧
    (∀ n : Nat,
      n ∈ (ensureWindow (runCycles initialAudioState n)).audioBuffer ∧
      n + 1 ∈ (ensureWindow (runCycles initialAudioState n)).audioBuffer ∧
      n + 2 ∈ (ensureWindow (runCycles initialAudioState n)).audioBuffer) := by
  have base : ∀ s : AudioState,
      s.currentIndex ∈ (ensureWindow s).audioBuffer ∧
      s.currentIndex + 1 ∈ (ensureWindow s).audioBuffer ∧
      s.currentIndex + 2 ∈ (ensureWindow s).audioBuffer := by
    intro s
    unfold ensureWindow
    dsimp only
    refine ⟨?_, ?_, mem_bufInsert_self _ _⟩
    · exact mem_bufInsert_of_mem _ _ _
        (mem_bufInsert_of_mem _ _ _ (mem_bufInsert_self _ _))
    · exact mem_bufInsert_of_mem _ _ _ (mem_bufInsert_self _ _)
  refine ⟨base, ?_⟩
  intro n
  have hc : (runCycles initialAudioState n).currentIndex = n := by
    rw [runCycles_initial n]
  have hb := base (runCycles initialAudioState n)
  rw [hc] at hb
  exact hb

theorem retryGo_calls_pos (fn : Nat → Except ApiError α) (a fuel : Nat) :
    1 ≤ (retryGo fn a fuel).calls := by
  cases fuel with
  | zero => cases h : fn a <;> simp [retryGo, h]
  | succ m =>
    cases h : fn a with
    | ok v => simp [retryGo, h]
    | error e =>
      by_cases hr : isRetryableError e.statusCode e = true
      · simp [retryGo, h, hr]
      · simp [retryGo, h, hr]

theorem retryGo_calls_le (fn : Nat → Except ApiError α) (fuel : Nat) :
    ∀ a, (retryGo fn a fuel).calls ≤ fuel + 1 := by
  induction fuel with
  | zero =>
    intro a
    cases h : fn a <;> simp [retryGo, h]
  | succ m ih =>
    intro a
    cases h : fn a with
    | ok v => simp [retryGo, h]
    | error e =>
      by_cases hr : isRetryableError e.statusCode e = true
      · have := ih (a + 1)
        simp only [retryGo, h, hr, if_true]
        omega
      · simp [retryGo, h, hr]

theorem retryGo_retried_retryable (fn : Nat → Except ApiError α) (fuel : Nat) :
    ∀ a n, n + 1 < (retryGo fn a fuel).calls →
      ∃ e, fn (a + n) = .error e ∧ isRetryableError e.statusCode e = true := by
  induction fuel with
  | zero =>
    intro a n h
    cases hf : fn a <;> simp [retryGo, hf] at h
  | succ m ih =>
    intro a n h
    cases hf : fn a with
    | ok v => simp [retryGo, hf] at h
    | error e =>
      by_cases hr : isRetryableError e.statusCode e = true
      · simp only [retryGo, hf, hr, if_true] at h
        cases n with
        | zero => exact ⟨e, by simpa using hf, hr⟩
        | succ j =>
          have hlt : j + 1 < (retryGo fn (a + 1) m).calls := by omega
          rcases ih (a + 1) j hlt with ⟨e2, he2, hr2⟩
          refine ⟨e2, ?_, hr2⟩
          rw [show a + (j + 1) = a + 1 + j by omega]
          exact he2
      · simp [retryGo, hf, hr] at h

theorem retryGo_delays (fn : Nat → Except ApiError α) (fuel : Nat) :
    ∀ a, (retryGo fn a fuel).delays =
      (List.range ((retryGo fn a fuel).calls - 1)).map
        (fun i => backoffDelay (a + i)) := by
  induction fuel with
  | zero =>
    intro a
    cases h : fn a <;> simp [retryGo, h]
  | succ m ih =>
    intro a
    cases h : fn a with
    | ok v => simp [retryGo, h]
    | error e =>
      by_cases hr : isRetryableError e.statusCode e = true
      · simp only [retryGo, h, hr, if_true]
        have hpos := retryGo_calls_pos fn (a + 1) m
        set r := retryGo fn (a + 1) m with hrdef
        have hc : r.calls + 1 - 1 = (r.calls - 1) + 1 := by omega
        rw [hc, List.range_succ_eq_map]
        simp only [List.map_cons, List.map_map]
        congr 1
        rw [ih (a + 1)]
        apply List.map_congr_left
        intro i _
        simp only [Function.comp]
        congr 1
        omega
      · simp [retryGo, h, hr]

theorem retryGo_fatal (fn : Nat → Except ApiError α) (fuel : Nat) :
    ∀ a n e, n < (retryGo fn a fuel).calls → fn (a + n) = .error e →
      isRetryableError e.statusCode e = false →
      (retryGo fn a fuel).result = .error e ∧
        (retryGo fn a fuel).calls = n + 1 := by
  induction fuel with
  | zero =>
    intro a n e hn hf hnr
    cases hfa : fn a with
    | ok v =>
      simp [retryGo, hfa] at hn
      subst hn
      rw [Nat.add_zero, hfa] at hf
      cases hf
    | error e2 =>
      simp only [retryGo, hfa] at hn ⊢
      have hn0 : n = 0 := by omega
      subst hn0
      rw [Nat.add_zero, hfa] at hf
      have he : e2 = e := Except.error.inj hf
      subst he
      exact ⟨rfl, rfl⟩
  | succ m ih =>
    intro a n e hn hf hnr
    cases hfa : fn a with
    | ok v =>
      simp [retryGo, hfa] at hn
      subst hn
      rw [Nat.add_zero, hfa] at hf
      cases hf
    | error e2 =>
      by_cases hr : isRetryableError e2.statusCode e2 = true
      · simp only [retryGo, hfa, hr, if_true] at hn ⊢
        cases n with
        | zero =>
          rw [Nat.add_zero, hfa] at hf
          have : e2 = e := Except.error.inj hf
          subst this
          rw [hr] at hnr
          cases hnr
        | succ j =>
          have hlt : j < (retryGo fn (a + 1) m).calls := by omega
          have hf2 : fn (a + 1 + j) = .error e := by
            rw [show a + 1 + j = a + (j + 1) by omega]
            exact hf
          rcases ih (a + 1) j e hlt hf2 hnr with ⟨hres, hcalls⟩
          exact ⟨hres, by omega⟩
      · simp [retryGo, hfa, hr] at hn ⊢
        have hn0 : n = 0 := by omega
        subst hn0
        rw [Nat.add_zero, hfa] at hf
        have he : e2 = e := Except.error.inj hf
        subst he
        exact ⟨rfl, rfl⟩
/-- C9: retryWithBackoff invokes the wrapped operation between 1 and 4
times; every attempt that is followed by another one failed with a
retryable error (status 429, 500, 502, 503, 504 or a listed network error
code); the delay slept between attempt n and attempt n + 1 is
min(1000 * 2 ^ n, 10000) milliseconds; and a non-retryable error ends the
run immediately with that error after the failing attempt. -/
theorem C9_retry_policy :
    ∀ (α : Type) (fn : Nat → Except ApiError α),
      (1 ≤ (retryWithBackoff fn).calls ∧ (retryWithBackoff fn).calls ≤ 4) ∧
      (∀ n, n + 1 < (retryWithBackoff fn).calls →
        ∃ e, fn n = .error e ∧ isRetryableError e.statusCode e = true) ∧
      ((retryWithBackoff fn).delays =
        (List.range ((retryWithBackoff fn).calls - 1)).map
          (fun n => min (1000 * 2 ^ n) 10000)) ∧
      (∀ n e, n < (retryWithBackoff fn).calls → fn n = .error e →
        isRetryableError e.statusCode e = false →
        (retryWithBackoff fn).result = .error e ∧
          (retryWithBackoff fn).calls = n + 1) := by
  intro α fn
  refine ⟨⟨retryGo_calls_pos fn 0 RETRY_maxRetries, ?_⟩, ?_, ?_, ?_⟩
  · exact retryGo_calls_le fn RETRY_maxRetries 0
  · intro n h
    have := retryGo_retried_retryable fn RETRY_maxRetries 0 n h
    simpa using this
  · show (retryGo fn 0 RETRY_maxRetries).delays =
      (List.range ((retryGo fn 0 RETRY_maxRetries).calls - 1)).map
        (fun n => min (1000 * 2 ^ n) 10000)
    rw [retryGo_delays fn RETRY_maxRetries 0]
    apply List.map_congr_left
    intro i _
    simp [backoffDelay, RETRY_initialDelayMs, RETRY_maxDelayMs]
  · intro n e hn hf hnr
    exact retryGo_fatal fn RETRY_maxRetries 0 n e hn (by simpa using hf) hnr

/-- C9 witness: a permanent 404 is rethrown after a single attempt. -/
theorem C9_retry_policy_witness :
    (retryWithBackoff (fun _ => Except.error ⟨some 404, none, false⟩) :
      RetryResult Unit).calls = 1 :=
  ((C9_retry_policy Unit (fun _ => Except.error ⟨some 404, none, false⟩)).2.2.2 0
    ⟨some 404, none, false⟩ (by decide) rfl (by decide)).2
theorem upstreamResponse_calls (r : RetryResult Unit) :
    (upstreamResponse r).upstreamCalls = r.calls := by
  unfold upstreamResponse
  cases hr : r.result with
  | ok v => rfl
  | error e =>
    dsimp only
    cases hsc : e.statusCode with
    | some c => rfl
    | none =>
      dsimp only
      split <;> rfl

/-- C8 counterexample: a POST request with verified App Check, configured
key, a valid prompt, and systemInstruction equal to the number 0 (present
and not a string) is not rejected: the falsy guard skips the type check, so
the request is forwarded upstream and answered 200, not 400. -/
theorem C8_validation_counterexample :
    (⟨"POST", some "tok", true, true, some (.str "hi"), some (.num 0)⟩ :
      StoryRequest).systemInstruction = some (JsVal.num 0) ∧
    (JsVal.num 0).isString = false ∧
    (generateStory
      ⟨"POST", some "tok", true, true, some (.str "hi"), some (.num 0)⟩
      (fun _ => Except.ok ())).status = 200 ∧
    (generateStory
      ⟨"POST", some "tok", true, true, some (.str "hi"), some (.num 0)⟩
      (fun _ => Except.ok ())).upstreamCalls = 1 := by
  decide

/-- C8 (amended): a request whose prompt is absent, not a string, or longer
than 10,000 characters is never forwarded upstream, and once it passes the
method, App Check and API-key gates it is answered 400 Invalid request; a
truthy non-string systemInstruction is also answered 400 without
forwarding; but a falsy non-string systemInstruction (0, false, null) is
treated as absent and the request is forwarded. -/
theorem C8_validation :
    ∀ (r : StoryRequest) (upstream : Nat → Except ApiError Unit),
      ((r.prompt = none ∨ (∃ v, r.prompt = some v ∧ v.isString = false) ∨
          (∃ s, r.prompt = some (JsVal.str s) ∧ 10000 < s.length)) →
        (generateStory r upstream).upstreamCalls = 0) ∧
      (r.method = "POST" → r.appCheckToken.isSome = true →
        r.appCheckValid = true → r.apiKeyConfigured = true →
        (r.prompt = none ∨ (∃ v, r.prompt = some v ∧ v.isString = false) ∨
          (∃ s, r.prompt = some (JsVal.str s) ∧ 10000 < s.length)) →
        (generateStory r upstream).status = 400 ∧
          (generateStory r upstream).error = "Invalid request") ∧
      (r.method = "POST" → r.appCheckToken.isSome = true →
        r.appCheckValid = true → r.apiKeyConfigured = true →
        ∀ v, r.systemInstruction = some v → v.truthy = true →
        v.isString = false →
        (generateStory r upstream).status = 400 ∧
          (generateStory r upstream).error = "Invalid request" ∧
          (generateStory r upstream).upstreamCalls = 0) ∧
      (r.method = "POST" → r.appCheckToken.isSome = true →
        r.appCheckValid = true → r.apiKeyConfigured = true →
        ∀ p, r.prompt = some (JsVal.str p) → p ≠ "" → p.length ≤ 10000 →
        ∀ v, r.systemInstruction = some v → v.truthy = false →
        generateStory r upstream = upstreamResponse (retryWithBackoff upstream) ∧
          1 ≤ (generateStory r upstream).upstreamCalls) := by
  intro r up
  refine ⟨?_, ?_, ?_, ?_⟩
  · intro hp
    unfold generateStory
    split_ifs
    · rfl
    · rfl
    · rfl
    · rfl
    · rfl
    · rcases hp with hnone | ⟨v, hv, hvs⟩ | ⟨s, hs, hlen⟩
      · rw [hnone]
      · rw [hv]
        dsimp only
        rw [if_pos (by simp [hvs])]
      · rw [hs]
        have hne : s ≠ "" := by
          intro h
          subst h
          simp [String.length] at hlen
        have hemp : s.isEmpty = false := by
          rw [Bool.eq_false_iff]
          intro h
          exact hne ((String.isEmpty_iff s).mp h)
        dsimp only [JsVal.truthy, JsVal.isString, JsVal.asString]
        rw [if_neg (by simp [hemp]), if_pos hlen]
  · intro hm ht hav hak hp
    rcases Option.isSome_iff_exists.mp ht with ⟨tok, htok⟩
    unfold generateStory
    rw [hm, htok, hav, hak,
      if_neg (by decide), if_neg (by decide), if_neg (by simp),
      if_neg (by decide), if_neg (by decide)]
    rcases hp with hnone | ⟨v, hv, hvs⟩ | ⟨s, hs, hlen⟩
    · rw [hnone]
      exact ⟨rfl, rfl⟩
    · rw [hv]
      dsimp only
      rw [if_pos (by simp [hvs])]
      exact ⟨rfl, rfl⟩
    · rw [hs]
      have hne : s ≠ "" := by
        intro h
        subst h
        simp [String.length] at hlen
      have hemp : s.isEmpty = false := by
        rw [Bool.eq_false_iff]
        intro h
        exact hne ((String.isEmpty_iff s).mp h)
      dsimp only [JsVal.truthy, JsVal.isString, JsVal.asString]
      rw [if_neg (by simp [hemp]), if_pos hlen]
      exact ⟨rfl, rfl⟩
  · intro hm ht hav hak v hsi hvt hvs
    rcases Option.isSome_iff_exists.mp ht with ⟨tok, htok⟩
    unfold generateStory
    rw [hm, htok, hav, hak,
      if_neg (by decide), if_neg (by decide), if_neg (by simp),
      if_neg (by decide), if_neg (by decide)]
    cases hp : r.prompt with
    | none => exact ⟨rfl, rfl, rfl⟩
    | some p =>
      dsimp only
      by_cases h1 : (!p.truthy || !p.isString) = true
      · rw [if_pos h1]
        exact ⟨rfl, rfl, rfl⟩
      · rw [if_neg h1]
        by_cases h2 : 10000 < p.asString.length
        · rw [if_pos h2]
          exact ⟨rfl, rfl, rfl⟩
        · rw [if_neg h2, hsi]
          dsimp only
          rw [if_pos (by simp [hvt, hvs])]
          exact ⟨rfl, rfl, rfl⟩
  · intro hm ht hav hak p hp hpne hplen v hsi hvf
    rcases Option.isSome_iff_exists.mp ht with ⟨tok, htok⟩
    have hemp : p.isEmpty = false := by
      rw [Bool.eq_false_iff]
      intro h
      exact hpne ((String.isEmpty_iff p).mp h)
    unfold generateStory
    rw [hm, htok, hav, hak,
      if_neg (by decide), if_neg (by decide), if_neg (by simp),
      if_neg (by decide), if_neg (by decide), hp]
    dsimp only
    rw [if_neg (by simp [JsVal.truthy, JsVal.isString, hemp]),
      if_neg (by simp [JsVal.asString]; omega), hsi]
    dsimp only
    rw [if_neg (by simp [hvf])]
    refine ⟨rfl, ?_⟩
    rw [upstreamResponse_calls]
    exact retryGo_calls_pos up 0 RETRY_maxRetries

/-- C8 witness: a gate-passing request with no prompt is answered 400. -/
theorem C8_validation_witness :
    (generateStory ⟨"POST", some "tok", true, true, none, none⟩
      (fun _ => Except.ok ())).status = 400 :=
  ((C8_validation ⟨"POST", some "tok", true, true, none, none⟩
      (fun _ => Except.ok ())).2.1 rfl rfl rfl rfl (Or.inl rfl)).1

theorem ttsFullText_append (text a : String) (hne : a ≠ "")
    (hna : a ≠ "American") :
    ttsFullText text (some a) = text ++ " Speak with a " ++ a ++ " accent." := by
  unfold ttsFullText ttsAccentPrompt
  dsimp only
  have hemp : a.isEmpty = false := by
    rw [Bool.eq_false_iff]
    intro h
    exact hne ((String.isEmpty_iff a).mp h)
  rw [if_pos (by simp [hemp, bne_iff_ne.mpr hna])]
  simp [String.append_assoc]

/-- C10 counterexample: an accent field holding the empty string is present
and different from American, yet the forwarded text is the input text
unchanged, not the input text with an accent instruction appended. -/
theorem C10_tts_counterexample :
    (some "" : Option String) ≠ none ∧
    (some "" : Option String) ≠ some "American" ∧
    ttsFullText "Hello." (some "") = "Hello." ∧
    ("Hello." : String) ≠ "Hello." ++ " Speak with a " ++ "" ++ " accent." := by
  decide

/-- C10 (amended): the forwarded TTS text equals the input exactly when the
accent field is absent, empty, or American; for any other accent value the
accent instruction is appended; and the voice defaults to Kore when the
voice field is absent. -/
theorem C10_tts_request :
    ∀ (text : String) (accent voice : Option String),
      (ttsFullText text accent = text ↔
        accent = none ∨ accent = some "" ∨ accent = some "American") ∧
      (∀ a, accent = some a → a ≠ "" → a ≠ "American" →
        ttsFullText text accent =
          text ++ " Speak with a " ++ a ++ " accent.") ∧
      (voice = none → ttsVoiceName voice = "Kore") := by
  intro text accent voice
  refine ⟨?_, ?_, ?_⟩
  · constructor
    · intro h
      by_contra hn
      push_neg at hn
      obtain ⟨h1, h2, h3⟩ := hn
      cases ha : accent with
      | none => exact h1 ha
      | some a =>
        have hne : a ≠ "" := by
          intro he
          exact h2 (by rw [ha, he])
        have hna : a ≠ "American" := by
          intro he
          exact h3 (by rw [ha, he])
        rw [ha] at h
        rw [ttsFullText_append text a hne hna] at h
        have hl := congrArg String.length h
        rw [String.length_append, String.length_append, String.length_append] at hl
        have h14 : (" Speak with a " : String).length = 14 := by decide
        have h8 : (" accent." : String).length = 8 := by decide
        omega
    · intro h
      have he : ("" : String).isEmpty = true := by decide
      rcases h with h | h | h <;> subst h <;>
        simp [ttsFullText, ttsAccentPrompt, String.append_empty, he]
  · intro a ha hne hna
    rw [ha]
    exact ttsFullText_append text a hne hna
  · intro h
    subst h
    rfl

/-- C10 witness: a British accent makes the handler append the accent
instruction. -/
theorem C10_tts_request_witness :
    ttsFullText "Hi." (some "British") =
      "Hi." ++ " Speak with a " ++ "British" ++ " accent." :=
  (C10_tts_request "Hi." (some "British") none).2.1 "British" rfl
    (by decide) (by decide)
end Dreamweaver
